import Mathlib

/-!
Verification development for the censoredplanet-analysis measurement
normalization and metadata-join engine.

The Python sources under pipeline/ are shallowly embedded as Lean
definitions.  Apache Beam PCollections are modelled as Lean lists and the
Beam combinators (Map, Keys, Distinct, GroupByKey, CoGroupByKey,
FlatMapTuple) as the corresponding list operations.  Python exceptions are
modelled with Except.  Definitions whose Python source file was not
provided (only imported by the provided files) are modelled from the
specification and say so in their doc comment.
-/

/-! ## Row and key model

Modelled from the spec: the row schema lives in pipeline/metadata/schema.py
which is not among the provided sources.  Per the spec a row carries the
common fields date, source, domain, ip and measurement id, a variant part
(probe-style success flag or resolution-style answers), and six metadata
fields (netblock, asn, as name, as full name, as type, country) that start
unset and are filled only by the join engine. -/

structure BigqueryRow where
  domain : String := ""
  ip : String := ""
  date : String := ""
  source : String := ""
  measurement_id : String := ""
  success : Option Bool := none
  answers : List String := []
  netblock : Option String := none
  asn : Option Nat := none
  as_name : Option String := none
  as_full_name : Option String := none
  as_type : Option String := none
  country : Option String := none
deriving DecidableEq

/-- Modelled from the spec: a MetadataRecord is the result of one provider
lookup for a JoinKey, with all six fields optional; absence of a field is
valid and distinct from lookup failure. -/
structure MetadataRecord where
  netblock : Option String := none
  asn : Option Nat := none
  as_name : Option String := none
  as_full_name : Option String := none
  as_type : Option String := none
  country : Option String := none
deriving DecidableEq

/-- The join key type from pipeline/metadata/beam_metadata.py: a (date, ip)
pair of strings. -/
abbrev DateIpKey := String × String

/-- Modelled from the spec: make_date_ip_key lives in
pipeline/metadata/beam_metadata.py which is not among the provided sources.
Per the spec every row has exactly one JoinKey, the (date, ip) pair. -/
def make_date_ip_key (row : BigqueryRow) : DateIpKey :=
  (row.date, row.ip)

/-- The six metadata fields of a row, as a MetadataRecord. -/
def metadataOf (row : BigqueryRow) : MetadataRecord :=
  { netblock := row.netblock, asn := row.asn, as_name := row.as_name,
    as_full_name := row.as_full_name, as_type := row.as_type,
    country := row.country }

/-- Overwrite the six metadata fields of a row with the given record,
leaving all other fields unchanged. -/
def updateRowMetadata (row : BigqueryRow) (md : MetadataRecord) : BigqueryRow :=
  { row with
    netblock := md.netblock,
    asn := md.asn,
    as_name := md.as_name,
    as_full_name := md.as_full_name,
    as_type := md.as_type,
    country := md.country }

/-! ## Beam combinators on lists -/

/-- Model of beam.Distinct: exact-match deduplication of a PCollection.
Beam makes no ordering promise, so any list enumerating the distinct
elements is a faithful model; we use Mathlib dedup. -/
def beamDistinct {α : Type} [DecidableEq α] (l : List α) : List α :=
  l.dedup

/-- Model of beam.GroupByKey on a PCollection of pairs: one output group
per distinct key, holding all values carried by that key. -/
def beamGroupByKey {α β : Type} [DecidableEq α] (pairs : List (α × β)) :
    List (α × List β) :=
  (pairs.map Prod.fst).dedup.map
    (fun k => (k, (pairs.filter (fun p => decide (p.1 = k))).map Prod.snd))

/-- Model of beam.CoGroupByKey on two keyed PCollections: one output group
per distinct key occurring on either side, holding both value lists. -/
def beamCoGroupByKey {K A B : Type} [DecidableEq K]
    (as : List (K × A)) (bs : List (K × B)) :
    List (K × (List A × List B)) :=
  ((as.map Prod.fst) ++ (bs.map Prod.fst)).dedup.map
    (fun k => (k, ((as.filter (fun p => decide (p.1 = k))).map Prod.snd,
                   (bs.filter (fun p => decide (p.1 = k))).map Prod.snd)))

/-! ## Metadata join engine (beam_tables.py) -/

/-- ScanDataBeamPipelineRunner._add_ip_metadata from
pipeline/beam_tables.py: for one date group, make one metadata chooser for
the date and look up every ip of that group with it.  The chooser factory
and the chooser get_metadata call are modelled as a curried function; per
the spec the chooser absorbs single-ip lookup misses and returns a record
with the missing fields unset, so get_metadata is total. -/
def _add_ip_metadata (factory : String → String → MetadataRecord)
    (date : String) (ips : List String) :
    List (DateIpKey × MetadataRecord) :=
  let ip_metadata_chooser := factory date
  ips.map (fun ip => ((date, ip), ip_metadata_chooser ip))

/-- The keyed metadata PCollection built inside _add_metadata
(pipeline/beam_tables.py): key every row, keep the keys, dedup them, group
the distinct keys by date, and flat-map _add_ip_metadata over the groups. -/
def ipsWithMetadata (factory : String → String → MetadataRecord)
    (rows : List BigqueryRow) : List (DateIpKey × MetadataRecord) :=
  (beamGroupByKey (beamDistinct (rows.map make_date_ip_key))).flatMap
    (fun g => _add_ip_metadata factory g.1 g.2)

/-- Modelled from the spec: merge_metadata_with_rows lives in
pipeline/metadata/beam_metadata.py which is not among the provided sources.
Per the spec the re-join step merges each MetadataRecord back onto every
original row sharing its JoinKey, and rows whose key produced no metadata
pass through with metadata fields left unset. -/
def merge_metadata_with_rows (_key : DateIpKey)
    (metadatas : List MetadataRecord) (rows : List BigqueryRow) :
    List BigqueryRow :=
  let md := (metadatas.head?).getD {}
  rows.map (fun r => updateRowMetadata r md)

/-- ScanDataBeamPipelineRunner._add_metadata from pipeline/beam_tables.py:
key rows by (date, ip), dedup the keys, group them by date, look up
metadata once per distinct key, co-group metadata and rows by key, and
merge the metadata back onto the rows. -/
def _add_metadata (factory : String → String → MetadataRecord)
    (rows : List BigqueryRow) : List BigqueryRow :=
  let rows_keyed_by_ip_and_date := rows.map (fun r => (make_date_ip_key r, r))
  let grouped_metadata_and_rows :=
    beamCoGroupByKey (ipsWithMetadata factory rows) rows_keyed_by_ip_and_date
  grouped_metadata_and_rows.flatMap
    (fun g => merge_metadata_with_rows g.1 g.2.1 g.2.2)

/-! ## Helper lemmas on lists -/

theorem length_flatMap_eq_sum {α β : Type} (l : List α) (f : α → List β) :
    (l.flatMap f).length = (l.map (fun a => (f a).length)).sum := by
  induction l with
  | nil => rfl
  | cons a l ih => simp [List.flatMap_cons, ih]

theorem filterMap_flatMap_eq {α β γ : Type} (l : List α) (f : α → List β)
    (g : β → Option γ) :
    (l.flatMap f).filterMap g = l.flatMap (fun a => (f a).filterMap g) := by
  induction l with
  | nil => rfl
  | cons a l ih => simp [List.flatMap_cons, ih]

theorem length_filter_pos_neg {α : Type} (p : α → Bool) (l : List α) :
    (l.filter p).length + (l.filter (fun a => !(p a))).length = l.length := by
  induction l with
  | nil => rfl
  | cons a l ih =>
    by_cases h : p a = true <;> simp [List.filter_cons, h] <;> omega

/-- Partition lemma: summing, over a duplicate-free list of keys covering a
keyed list, the sizes of the per-key filters recovers the size of the
list. -/
theorem sum_length_filter_eq_length {α β : Type} [DecidableEq α]
    (ks : List α) (l : List (α × β)) (hnd : ks.Nodup)
    (hcov : ∀ p ∈ l, p.1 ∈ ks) :
    (ks.map (fun k => (l.filter (fun p => decide (p.1 = k))).length)).sum
      = l.length := by
  induction ks generalizing l with
  | nil =>
    have : l = [] := by
      cases l with
      | nil => rfl
      | cons p l => exact absurd (hcov p (by simp)) (by simp)
    simp [this]
  | cons k ks ih =>
    have hk : k ∉ ks := (List.nodup_cons.mp hnd).1
    have hnd' : ks.Nodup := (List.nodup_cons.mp hnd).2
    have hsplit :
        ∀ k2 ∈ ks, l.filter (fun p => decide (p.1 = k2))
          = (l.filter (fun p => !(decide (p.1 = k)))).filter
              (fun p => decide (p.1 = k2)) := by
      intro k2 hk2
      rw [List.filter_filter]
      apply List.filter_congr
      intro p _
      have hne : ¬ k2 = k := fun hcontr => hk (hcontr ▸ hk2)
      by_cases hpk : p.1 = k2
      · simp [hpk, hne]
      · simp [hpk]
    have hcov' :
        ∀ p ∈ l.filter (fun p => !(decide (p.1 = k))), p.1 ∈ ks := by
      intro p hp
      have hmem := List.mem_of_mem_filter hp
      have hne : ¬ p.1 = k := by simpa using List.of_mem_filter hp
      rcases List.mem_cons.mp (hcov p hmem) with h | h
      · exact absurd h hne
      · exact h
    have hrec := ih (l.filter (fun p => !(decide (p.1 = k)))) hnd' hcov'
    have hmapeq :
        ks.map (fun k2 => (l.filter (fun p => decide (p.1 = k2))).length)
          = ks.map (fun k2 =>
              ((l.filter (fun p => !(decide (p.1 = k)))).filter
                (fun p => decide (p.1 = k2))).length) := by
      apply List.map_congr_left
      intro k2 hk2
      rw [hsplit k2 hk2]
    calc ((k :: ks).map
            (fun k2 => (l.filter (fun p => decide (p.1 = k2))).length)).sum
        = (l.filter (fun p => decide (p.1 = k))).length
          + (ks.map
              (fun k2 => (l.filter (fun p => decide (p.1 = k2))).length)).sum := by
          simp
      _ = (l.filter (fun p => decide (p.1 = k))).length
          + (l.filter (fun p => !(decide (p.1 = k)))).length := by
          rw [hmapeq, hrec]
      _ = l.length := length_filter_pos_neg _ l

/-! ## Claim C1 -/

/-- Claim C1: row preservation.  For every input collection of rows and
every metadata chooser factory, the metadata join _add_metadata returns a
collection of identical cardinality, including when every metadata lookup
misses (the factory may return all-unset records); the join only augments
rows, it never drops or duplicates them. -/
theorem add_metadata_preserves_row_count
    (factory : String → String → MetadataRecord) (rows : List BigqueryRow) :
    (_add_metadata factory rows).length = rows.length := by
  unfold _add_metadata beamCoGroupByKey
  rw [length_flatMap_eq_sum, List.map_map]
  simp only [Function.comp_def, merge_metadata_with_rows, List.length_map]
  have hcov : ∀ p ∈ rows.map (fun r => (make_date_ip_key r, r)),
      p.1 ∈ ((ipsWithMetadata factory rows).map Prod.fst
        ++ (rows.map (fun r => (make_date_ip_key r, r))).map Prod.fst).dedup := by
    intro p hp
    rw [List.mem_dedup]
    exact List.mem_append_right _ (List.mem_map_of_mem Prod.fst hp)
  rw [sum_length_filter_eq_length _ _ (List.nodup_dedup _) hcov,
    List.length_map]

/-! ## Execution trace of the metadata acquisition step

The body of _add_ip_metadata performs, in order, one
metadata_chooser_factory.make_chooser call for its date followed by one
get_metadata call per ip of its group.  _add_metadata runs it once per
element of the date-grouped distinct keys.  The trace below records these
calls in execution order. -/

inductive JoinEvent where
  | makeChooser (date : String)
  | ipLookup (date : String) (ip : String)
deriving DecidableEq

def lookupKeyOf : JoinEvent → Option DateIpKey
  | JoinEvent.ipLookup d ip => some (d, ip)
  | JoinEvent.makeChooser _ => none

def chooserDateOf : JoinEvent → Option String
  | JoinEvent.makeChooser d => some d
  | JoinEvent.ipLookup _ _ => none

/-- The calls performed by one _add_ip_metadata invocation: one
make_chooser for the date, then one lookup per ip with that chooser. -/
def addIpMetadataTrace (date : String) (ips : List String) : List JoinEvent :=
  JoinEvent.makeChooser date :: ips.map (fun ip => JoinEvent.ipLookup date ip)

/-- The provider calls performed by _add_metadata on a row collection. -/
def joinTrace (rows : List BigqueryRow) : List JoinEvent :=
  (beamGroupByKey (beamDistinct (rows.map make_date_ip_key))).flatMap
    (fun g => addIpMetadataTrace g.1 g.2)

/-- The dates of the make_chooser calls of a trace, in order. -/
def chooserDatesOf (t : List JoinEvent) : List String :=
  t.filterMap chooserDateOf

/-- A trace is well scoped when every ip lookup uses the chooser produced
by the most recent make_chooser call, i.e. the chooser of its own date:
the provider is reused across the lookups of its date and never
reconstructed per lookup.  The first argument is the date of the chooser
currently in hand. -/
def wellScoped : Option String → List JoinEvent → Bool
  | _, [] => true
  | _, JoinEvent.makeChooser d :: rest => wellScoped (some d) rest
  | cur, JoinEvent.ipLookup d _ :: rest => cur == some d && wellScoped cur rest

theorem wellScoped_makeChooser (cur : Option String) (d : String)
    (rest : List JoinEvent) :
    wellScoped cur (JoinEvent.makeChooser d :: rest)
      = wellScoped (some d) rest := rfl

theorem wellScoped_ipLookup (cur : Option String) (d ip : String)
    (rest : List JoinEvent) :
    wellScoped cur (JoinEvent.ipLookup d ip :: rest)
      = (cur == some d && wellScoped cur rest) := rfl

theorem filterMap_lookups (d : String) (ips : List String) :
    (ips.map (fun ip => JoinEvent.ipLookup d ip)).filterMap lookupKeyOf
      = ips.map (fun ip => (d, ip)) := by
  induction ips with
  | nil => rfl
  | cons ip ips ih => simp only [List.map_cons, List.filterMap_cons, lookupKeyOf, ih]

theorem filterMap_trace_group (d : String) (ips : List String) :
    (addIpMetadataTrace d ips).filterMap lookupKeyOf
      = ips.map (fun ip => (d, ip)) := by
  simp only [addIpMetadataTrace, List.filterMap_cons, lookupKeyOf]
  exact filterMap_lookups d ips

theorem flatMap_congr_fn {α β : Type} {l : List α} {f g : α → List β}
    (h : ∀ a ∈ l, f a = g a) : l.flatMap f = l.flatMap g := by
  induction l with
  | nil => rfl
  | cons a l ih =>
    simp only [List.flatMap_cons]
    rw [h a (by simp), ih (fun b hb => h b (by simp [hb]))]

theorem flatMap_singleton_eq_map {α β : Type} (l : List α) (f : α → β) :
    l.flatMap (fun a => [f a]) = l.map f := by
  induction l with
  | nil => rfl
  | cons a l ih => simp only [List.flatMap_cons, ih, List.map_cons, List.singleton_append]

/-- The sequence of (date, ip) pairs passed to get_metadata during the
join, read off the trace. -/
theorem joinTrace_lookup_keys (rows : List BigqueryRow) :
    (joinTrace rows).filterMap lookupKeyOf
      = (beamGroupByKey (beamDistinct (rows.map make_date_ip_key))).flatMap
          (fun g => g.2.map (fun ip => (g.1, ip))) := by
  unfold joinTrace
  rw [filterMap_flatMap_eq]
  exact flatMap_congr_fn (fun g _ => filterMap_trace_group g.1 g.2)

/-! ## Claim C2 -/

/-- Claim C2: key dedup.  For every row collection, the number of provider
get_metadata invocations performed by the join (read off its trace) equals
the number of distinct (date, ip) pairs among the rows, independent of how
many rows share a key; the deduplication is exact-match (beam.Distinct,
modelled as list dedup, whose output is duplicate-free and holds exactly
the keys of the rows).  Moreover the lookup calls correspond one to one to
the keyed metadata records the join produces. -/
theorem lookup_count_eq_distinct_key_count
    (factory : String → String → MetadataRecord) (rows : List BigqueryRow) :
    ((joinTrace rows).filterMap lookupKeyOf).length
        = (beamDistinct (rows.map make_date_ip_key)).length
    ∧ (joinTrace rows).filterMap lookupKeyOf
        = (ipsWithMetadata factory rows).map Prod.fst
    ∧ (beamDistinct (rows.map make_date_ip_key)).Nodup
    ∧ (∀ k : DateIpKey,
        k ∈ beamDistinct (rows.map make_date_ip_key)
          ↔ k ∈ rows.map make_date_ip_key) := by
  refine ⟨?_, ?_, List.nodup_dedup _, fun k => List.mem_dedup⟩
  · rw [joinTrace_lookup_keys]
    unfold beamGroupByKey
    rw [length_flatMap_eq_sum, List.map_map]
    simp only [Function.comp_def, List.length_map]
    have hcov : ∀ p ∈ beamDistinct (rows.map make_date_ip_key),
        p.1 ∈ ((beamDistinct (rows.map make_date_ip_key)).map Prod.fst).dedup := by
      intro p hp
      rw [List.mem_dedup]
      exact List.mem_map_of_mem Prod.fst hp
    exact sum_length_filter_eq_length _ _ (List.nodup_dedup _) hcov
  · rw [joinTrace_lookup_keys]
    unfold ipsWithMetadata
    rw [List.map_flatMap]
    apply flatMap_congr_fn
    intro g _
    simp [_add_ip_metadata]

/-! ## Claim C4 -/

/-- Claim C4: per-date provider acquisition.  In the join trace,
make_chooser is called exactly once per distinct date occurring among the
row keys (so at most once per date and never once per ip), the list of
make_chooser dates is duplicate-free, and the trace is well scoped: every
get_metadata call runs under the chooser most recently constructed, which
is the chooser of its own date, so one chooser instance is reused for all
lookups of its date and never reconstructed per lookup. -/
theorem chooser_once_per_date (rows : List BigqueryRow) :
    chooserDatesOf (joinTrace rows)
        = ((beamDistinct (rows.map make_date_ip_key)).map Prod.fst).dedup
    ∧ (chooserDatesOf (joinTrace rows)).Nodup
    ∧ wellScoped none (joinTrace rows) = true := by
  have hdates : chooserDatesOf (joinTrace rows)
      = ((beamDistinct (rows.map make_date_ip_key)).map Prod.fst).dedup := by
    unfold chooserDatesOf joinTrace
    rw [filterMap_flatMap_eq]
    have hgrp : ∀ g : String × List String,
        (addIpMetadataTrace g.1 g.2).filterMap chooserDateOf = [g.1] := by
      intro g
      simp only [addIpMetadataTrace, List.filterMap_cons, chooserDateOf]
      have : ∀ ips : List String,
          (ips.map (fun ip => JoinEvent.ipLookup g.1 ip)).filterMap
            chooserDateOf = [] := by
        intro ips
        induction ips with
        | nil => rfl
        | cons ip ips ih =>
          simp only [List.map_cons, List.filterMap_cons, chooserDateOf, ih]
      rw [this]
    rw [flatMap_congr_fn (fun g _ => hgrp g),
      flatMap_singleton_eq_map]
    unfold beamGroupByKey
    rw [List.map_map]
    simp [Function.comp_def]
  refine ⟨hdates, by rw [hdates]; exact List.nodup_dedup _, ?_⟩
  have hskip : ∀ (d : String) (ips : List String) (rest : List JoinEvent),
      wellScoped (some d)
          (ips.map (fun ip => JoinEvent.ipLookup d ip) ++ rest)
        = wellScoped (some d) rest := by
    intro d ips rest
    induction ips with
    | nil => rfl
    | cons ip ips ih =>
      simp only [List.map_cons, List.cons_append, wellScoped_ipLookup, ih]
      simp
  have hgroups : ∀ (groups : List (String × List String)) (cur : Option String),
      wellScoped cur (groups.flatMap (fun g => addIpMetadataTrace g.1 g.2))
        = true := by
    intro groups
    induction groups with
    | nil => intro cur; rfl
    | cons g gs ih =>
      intro cur
      rw [List.flatMap_cons]
      rw [show addIpMetadataTrace g.1 g.2
          = JoinEvent.makeChooser g.1
            :: g.2.map (fun ip => JoinEvent.ipLookup g.1 ip) from rfl]
      rw [List.cons_append, wellScoped_makeChooser, hskip, ih]
  exact hgroups _ none

/-! ## Claim C3 -/

/-- The metadata record the join associates with a key: the first record
produced for that key, or the all-unset record when the key produced
none. -/
def metadataForKey (factory : String → String → MetadataRecord)
    (rows : List BigqueryRow) (k : DateIpKey) : MetadataRecord :=
  ((((ipsWithMetadata factory rows).filter
    (fun p => decide (p.1 = k))).map Prod.snd).head?).getD {}

theorem updateRowMetadata_date (r : BigqueryRow) (md : MetadataRecord) :
    (updateRowMetadata r md).date = r.date := rfl

theorem updateRowMetadata_ip (r : BigqueryRow) (md : MetadataRecord) :
    (updateRowMetadata r md).ip = r.ip := rfl

theorem metadataOf_updateRowMetadata (r : BigqueryRow) (md : MetadataRecord) :
    metadataOf (updateRowMetadata r md) = md := rfl

/-- Every row coming out of the join carries exactly the metadata record
the join associates with its own (date, ip) key. -/
theorem mem_add_metadata_metadata_eq
    (factory : String → String → MetadataRecord) (rows : List BigqueryRow)
    (r : BigqueryRow) (hr : r ∈ _add_metadata factory rows) :
    metadataOf r = metadataForKey factory rows (r.date, r.ip) := by
  unfold _add_metadata beamCoGroupByKey at hr
  rw [List.mem_flatMap] at hr
  obtain ⟨g, hg, hrg⟩ := hr
  rw [List.mem_map] at hg
  obtain ⟨k, _, hgk⟩ := hg
  subst hgk
  unfold merge_metadata_with_rows at hrg
  simp only [List.mem_map] at hrg
  obtain ⟨r0, hr0, hrup⟩ := hrg
  obtain ⟨p, hp, hpr0⟩ := hr0
  have hpb := List.mem_filter.mp hp
  have hb : decide (p.1 = k) = true := hpb.2
  have hpk : p.1 = k := of_decide_eq_true hb
  have hpmem := hpb.1
  rw [List.mem_map] at hpmem
  obtain ⟨row, _, hprow⟩ := hpmem
  subst hprow
  have hrr : row = r0 := hpr0
  subst hrr
  have hk2 : make_date_ip_key row = k := hpk
  have hdateip : (r.date, r.ip) = k := by
    rw [← hrup, updateRowMetadata_date, updateRowMetadata_ip]
    exact hk2
  rw [hdateip, ← hrup, metadataOf_updateRowMetadata]
  unfold metadataForKey
  rfl

/-- Claim C3: merge consistency.  After the metadata join, any two rows
sharing one JoinKey (equal date and equal ip) carry identical metadata
field values: each distinct key resolves to exactly one MetadataRecord,
attached to every row with that key. -/
theorem merge_consistency
    (factory : String → String → MetadataRecord) (rows : List BigqueryRow)
    (r1 r2 : BigqueryRow)
    (h1 : r1 ∈ _add_metadata factory rows)
    (h2 : r2 ∈ _add_metadata factory rows)
    (hdate : r1.date = r2.date) (hip : r1.ip = r2.ip) :
    metadataOf r1 = metadataOf r2 := by
  rw [mem_add_metadata_metadata_eq factory rows r1 h1,
    mem_add_metadata_metadata_eq factory rows r2 h2, hdate, hip]

def wRow1 : BigqueryRow := { domain := "a.com", ip := "1.2.3.4", date := "2020-01-01" }

def wRow2 : BigqueryRow := { domain := "b.com", ip := "1.2.3.4", date := "2020-01-01" }

def wFactory : String → String → MetadataRecord :=
  fun _ _ => { netblock := some "1.2.3.0/24", asn := some 13335, country := some "AU" }

theorem merge_consistency_witness :
    metadataOf (updateRowMetadata wRow1 (wFactory "2020-01-01" "1.2.3.4"))
      = metadataOf (updateRowMetadata wRow2 (wFactory "2020-01-01" "1.2.3.4")) :=
  merge_consistency wFactory [wRow1, wRow2]
    (updateRowMetadata wRow1 (wFactory "2020-01-01" "1.2.3.4"))
    (updateRowMetadata wRow2 (wFactory "2020-01-01" "1.2.3.4"))
    (by decide) (by decide) (by decide) (by decide)

/-! ## Source selector (beam_tables.py)

Python dates and the selection errors.  Exceptions raised during selection
are modelled with Except: indexError models the IndexError of taking
element zero of an empty findall result, valueError the ValueError of
date.fromisoformat on an out-of-range date. -/

inductive PyErr where
  | indexError
  | valueError
deriving DecidableEq

instance {ε α : Type} [DecidableEq ε] [DecidableEq α] :
    DecidableEq (Except ε α) := fun x y =>
  match x, y with
  | Except.ok a, Except.ok b =>
    if h : a = b then isTrue (by rw [h])
    else isFalse (by intro hc; cases hc; exact h rfl)
  | Except.error a, Except.error b =>
    if h : a = b then isTrue (by rw [h])
    else isFalse (by intro hc; cases hc; exact h rfl)
  | Except.ok _, Except.error _ => isFalse (by intro hc; cases hc)
  | Except.error _, Except.ok _ => isFalse (by intro hc; cases hc)

structure PyDate where
  year : Nat
  month : Nat
  day : Nat
deriving DecidableEq

/-- Comparison of datetime.date values: lexicographic on
(year, month, day). -/
def PyDate.le (a b : PyDate) : Bool :=
  decide (a.year < b.year) ||
    (decide (a.year = b.year) && (decide (a.month < b.month) ||
      (decide (a.month = b.month) && decide (a.day ≤ b.day))))

def isLeapYear (y : Nat) : Bool :=
  decide (y % 4 = 0) && (decide (y % 100 ≠ 0) || decide (y % 400 = 0))

def daysInMonth (y m : Nat) : Nat :=
  if m = 2 then (if isLeapYear y then 29 else 28)
  else if m = 4 ∨ m = 6 ∨ m = 9 ∨ m = 11 then 30
  else 31

def digitVal (c : Char) : Nat := c.toNat - 48

/-- The regex digit class of the date stamp pattern, modelled as an ASCII
decimal digit. -/
def isRegexDigit (c : Char) : Bool := c.isDigit

/-- Whether the character list starts with a match of the regex
dddd-dd-dd used by _between_dates, and the ten matched characters. -/
def dateStampAt : List Char → Option (List Char)
  | y1 :: y2 :: y3 :: y4 :: h1 :: m1 :: m2 :: h2 :: d1 :: d2 :: _ =>
    if isRegexDigit y1 && isRegexDigit y2 && isRegexDigit y3 && isRegexDigit y4
        && decide (h1 = '-') && isRegexDigit m1 && isRegexDigit m2
        && decide (h2 = '-') && isRegexDigit d1 && isRegexDigit d2 then
      some [y1, y2, y3, y4, h1, m1, m2, h2, d1, d2]
    else none
  | _ => none

/-- The first (leftmost) match of the date stamp regex in the string, as
re.findall followed by taking element zero returns it; none when the
string holds no match, in which case element zero raises IndexError. -/
def findDateMatch : List Char → Option (List Char)
  | [] => none
  | c :: rest =>
    match dateStampAt (c :: rest) with
    | some m => some m
    | none => findDateMatch rest

/-- datetime.date.fromisoformat on a ten character YYYY-MM-DD candidate:
some date when the fields are in range (year at least one, month 1..12,
day fitting the Gregorian month), none modelling the ValueError
otherwise. -/
def fromisoformat (cs : List Char) : Option PyDate :=
  match cs with
  | [y1, y2, y3, y4, h1, m1, m2, h2, d1, d2] =>
    if isRegexDigit y1 && isRegexDigit y2 && isRegexDigit y3 && isRegexDigit y4
        && decide (h1 = '-') && isRegexDigit m1 && isRegexDigit m2
        && decide (h2 = '-') && isRegexDigit d1 && isRegexDigit d2 then
      let y := ((digitVal y1 * 10 + digitVal y2) * 10 + digitVal y3) * 10
        + digitVal y4
      let m := digitVal m1 * 10 + digitVal m2
      let d := digitVal d1 * 10 + digitVal d2
      if decide (1 ≤ y) && decide (1 ≤ m) && decide (m ≤ 12) && decide (1 ≤ d)
          && decide (d ≤ daysInMonth y m) then
        some ⟨y, m, d⟩
      else none
    else none
  | _ => none

/-- The date window test of _between_dates: both bounds inclusive, an
absent bound unbounded on its side, both absent passing every date. -/
def dateInWindow (start_date end_date : Option PyDate) (d : PyDate) : Bool :=
  match start_date, end_date with
  | some s, some e => PyDate.le s d && PyDate.le d e
  | some s, none => PyDate.le s d
  | none, some e => PyDate.le d e
  | none, none => true

/-- _between_dates from pipeline/beam_tables.py: extract the first
YYYY-MM-DD match of the filename (IndexError when there is none), parse it
as a date (ValueError when out of range), and test it against the optional
window. -/
def _between_dates (filename : String) (start_date end_date : Option PyDate) :
    Except PyErr Bool :=
  match findDateMatch filename.toList with
  | none => Except.error PyErr.indexError
  | some cs =>
    match fromisoformat cs with
    | none => Except.error PyErr.valueError
    | some d => Except.ok (dateInWindow start_date end_date d)

/-- Structural split of a character list on a separator character. -/
def splitOnChar (sep : Char) : List Char → List (List Char)
  | [] => [[]]
  | c :: rest =>
    if c == sep then [] :: splitOnChar sep rest
    else
      match splitOnChar sep rest with
      | [] => [[c]]
      | g :: gs => (c :: g) :: gs

/-- pathlib.PurePosixPath(filepath).name: the final nonempty path
component. -/
def pathName (filepath : String) : String :=
  match ((splitOnChar '/' filepath.toList).filter
      (fun g => !g.isEmpty)).getLast? with
  | some g => String.mk g
  | none => ""

/-- pathlib.PurePosixPath(name).suffixes for a bare filename: empty when
the name ends with a dot, otherwise one dotted suffix per dot-separated
part after the first, leading dots stripped first. -/
def pathSuffixes (name : String) : List String :=
  let cs := name.toList
  if decide (cs.getLast? = some '.') then []
  else
    ((splitOnChar '.' (cs.dropWhile (fun c => c == '.'))).tail).map
      (fun g => String.mk ('.' :: g))

def lastDotIdx (cs : List Char) : Option Nat :=
  match cs.reverse.findIdx? (fun c => c == '.') with
  | none => none
  | some j => some (cs.length - 1 - j)

/-- pathlib.PurePosixPath(name).stem for a bare filename: the name up to
its last dot when that dot is neither leading nor trailing, the whole name
otherwise. -/
def pathStem (name : String) : String :=
  let cs := name.toList
  match lastDotIdx cs with
  | none => name
  | some i => if 0 < i ∧ i < cs.length - 1 then String.mk (cs.take i) else name

/-- _filename_matches from pipeline/beam_tables.py: the terminal filename,
with one compression suffix stripped when .gz occurs among its suffixes,
must be one of the allowed data filenames. -/
def _filename_matches (filepath : String) (allowed_filenames : List String) :
    Bool :=
  let filename := pathName filepath
  let filename :=
    if (pathSuffixes filename).contains ".gz" then pathStem filename
    else filename
  allowed_filenames.contains filename

/-- Modelled from the spec: source_from_filename lives in
pipeline/metadata/flatten_base.py which is not among the provided sources.
Per the spec path convention .../family/source/datafile the source batch
identifier of a path is the parent directory name of its data file. -/
def source_from_filename (filepath : String) : String :=
  let comps := (splitOnChar '/' filepath.toList).filter (fun g => !g.isEmpty)
  match comps.dropLast.getLast? with
  | some g => String.mk g
  | none => ""

/-- An empty json file is 0 bytes when unzipped, but 33 bytes when zipped
(pipeline/beam_tables.py). -/
def EMPTY_GZIPPED_FILE_SIZE : Nat := 33

/-- The list comprehension inside _data_to_load, evaluated left to right
over the enumerated (path, size) metadata: the first condition evaluated
for each path is _between_dates, whose exception aborts the whole
selection. -/
def _data_to_load_filter (existing_sources files_to_load : List String)
    (start_date end_date : Option PyDate) :
    List (String × Nat) → Except PyErr (List String)
  | [] => Except.ok []
  | (filepath, file_size) :: rest =>
    match _between_dates filepath start_date end_date with
    | Except.error e => Except.error e
    | Except.ok b =>
      match _data_to_load_filter existing_sources files_to_load start_date
          end_date rest with
      | Except.error e => Except.error e
      | Except.ok others =>
        if b && _filename_matches filepath files_to_load
            && !(existing_sources.contains (source_from_filename filepath))
            && decide (EMPTY_GZIPPED_FILE_SIZE < file_size) then
          Except.ok (filepath :: others)
        else Except.ok others

/-- ScanDataBeamPipelineRunner._data_to_load from pipeline/beam_tables.py.
The GCS enumeration is passed in as the list of (path, size) pairs the
gcs.match call returns, and the already-ingested sources as the list
_get_existing_datasources returns; for non-incremental runs the existing
source set is the empty list. -/
def _data_to_load (incremental_load : Bool) (existing_sources : List String)
    (files_to_load : List String) (file_metadata : List (String × Nat))
    (start_date end_date : Option PyDate) : Except PyErr (List String) :=
  _data_to_load_filter (if incremental_load then existing_sources else [])
    files_to_load start_date end_date file_metadata

/-- Whether no enumerated path would raise ValueError while parsing its
date stamp (paths without any stamp are allowed: they raise IndexError
instead). -/
def noValueErrors (file_metadata : List (String × Nat)) : Bool :=
  file_metadata.all (fun fm =>
    match findDateMatch fm.1.toList with
    | some cs => (fromisoformat cs).isSome
    | none => true)

/-- The pure per-file condition of the _data_to_load comprehension. -/
def keepFile (existing_sources files_to_load : List String)
    (start_date end_date : Option PyDate) (q : String × Nat) : Bool :=
  (match _between_dates q.1 start_date end_date with
   | Except.ok b => b
   | Except.error _ => false)
  && _filename_matches q.1 files_to_load
  && !(existing_sources.contains (source_from_filename q.1))
  && decide (EMPTY_GZIPPED_FILE_SIZE < q.2)

theorem between_dates_ok_iff (filename : String) (s e : Option PyDate)
    (b : Bool) :
    _between_dates filename s e = Except.ok b
      ↔ ∃ cs d, findDateMatch filename.toList = some cs
          ∧ fromisoformat cs = some d ∧ b = dateInWindow s e d := by
  unfold _between_dates
  cases hf : findDateMatch filename.toList with
  | none => simp
  | some cs =>
    cases hfi : fromisoformat cs with
    | none => simp [hfi]
    | some d => simp [hfi, eq_comm]

theorem data_to_load_filter_ok (es fl : List String) (s e : Option PyDate)
    (fm : List (String × Nat)) (result : List String)
    (h : _data_to_load_filter es fl s e fm = Except.ok result) :
    result = (fm.filter (keepFile es fl s e)).map Prod.fst := by
  induction fm generalizing result with
  | nil =>
    unfold _data_to_load_filter at h
    cases h
    rfl
  | cons q rest ih =>
    obtain ⟨qp, qs⟩ := q
    unfold _data_to_load_filter at h
    cases hb : _between_dates qp s e with
    | error err => rw [hb] at h; cases h
    | ok b =>
      simp only [hb] at h
      cases hrec : _data_to_load_filter es fl s e rest with
      | error err => simp [hrec] at h
      | ok others =>
        simp only [hrec] at h
        have hkeep : keepFile es fl s e (qp, qs)
            = (b && _filename_matches qp fl
                && !(es.contains (source_from_filename qp))
                && decide (EMPTY_GZIPPED_FILE_SIZE < qs)) := by
          unfold keepFile
          rw [hb]
        rw [List.filter_cons]
        by_cases hc : (b && _filename_matches qp fl
            && !(es.contains (source_from_filename qp))
            && decide (EMPTY_GZIPPED_FILE_SIZE < qs)) = true
        · simp only [hc, if_true] at h
          cases h
          rw [hkeep, hc]
          simp [ih others hrec]
        · rw [Bool.not_eq_true] at hc
          simp only [hc] at h
          simp at h
          cases h
          rw [hkeep, hc]
          simp [ih result hrec]

theorem mem_filter_map_fst (fm : List (String × Nat))
    (f : String × Nat → Bool) (p : String) :
    p ∈ (fm.filter f).map Prod.fst
      ↔ ∃ sz, (p, sz) ∈ fm ∧ f (p, sz) = true := by
  rw [List.mem_map]
  constructor
  · rintro ⟨q, hq, rfl⟩
    have hqm := List.mem_filter.mp hq
    exact ⟨q.2, hqm.1, hqm.2⟩
  · rintro ⟨sz, hmem, hf⟩
    exact ⟨(p, sz), List.mem_filter.mpr ⟨hmem, hf⟩, rfl⟩

theorem keepFile_iff (es fl : List String) (s e : Option PyDate)
    (q : String × Nat) :
    keepFile es fl s e q = true
      ↔ (∃ cs d, findDateMatch q.1.toList = some cs
            ∧ fromisoformat cs = some d ∧ dateInWindow s e d = true)
        ∧ _filename_matches q.1 fl = true
        ∧ source_from_filename q.1 ∉ es
        ∧ EMPTY_GZIPPED_FILE_SIZE < q.2 := by
  unfold keepFile
  cases hb : _between_dates q.1 s e with
  | error err =>
    refine iff_of_false (by simp) ?_
    intro hcontr
    obtain ⟨⟨cs, d, hcs, hd, hw⟩, -, -, -⟩ := hcontr
    have hok : _between_dates q.1 s e = Except.ok (dateInWindow s e d) := by
      unfold _between_dates
      simp only [hcs, hd]
    rw [hb] at hok
    cases hok
  | ok b =>
    have hbd := (between_dates_ok_iff q.1 s e b).mp hb
    obtain ⟨cs, d, hcs, hd, hbw⟩ := hbd
    constructor
    · intro hc
      simp only [Bool.and_eq_true, Bool.not_eq_true'] at hc
      obtain ⟨⟨⟨hbtrue, hfn⟩, hsrc⟩, hsz⟩ := hc
      refine ⟨⟨cs, d, hcs, hd, by rw [← hbw, hbtrue]⟩, hfn, ?_, by simpa using hsz⟩
      intro hmem
      rw [List.contains, List.elem_eq_mem] at hsrc
      simp [hmem] at hsrc
    · rintro ⟨⟨cs2, d2, hcs2, hd2, hw2⟩, hfn, hsrc, hsz⟩
      rw [hcs] at hcs2
      cases hcs2
      rw [hd] at hd2
      cases hd2
      simp only [Bool.and_eq_true, Bool.not_eq_true']
      refine ⟨⟨⟨by rw [hbw, hw2], hfn⟩, ?_⟩, by simpa using hsz⟩
      rw [List.contains, List.elem_eq_mem]
      simp [hsrc]

/-! ## Claim C5 -/

/-- Claim C5: selector predicate.  When _data_to_load returns a file list,
a candidate path is in it if and only if: some enumerated metadata entry
carries that path with a size; the first embedded YYYY-MM-DD stamp of the
path parses to a date inside the optional inclusive window (an absent
bound unbounded, both absent passing all dates); the terminal filename,
after stripping the compression suffix when .gz is among its suffixes, is
one of the expected data filenames; the derived source identifier is not
in the already-ingested set, which is the empty set for non-incremental
runs; and the object size is strictly above the size of a
compressed-but-empty file. -/
theorem selector_predicate (incremental_load : Bool)
    (existing_sources files_to_load : List String)
    (file_metadata : List (String × Nat))
    (start_date end_date : Option PyDate)
    (result : List String) (p : String)
    (h : _data_to_load incremental_load existing_sources files_to_load
        file_metadata start_date end_date = Except.ok result) :
    p ∈ result
      ↔ ∃ sz cs d, (p, sz) ∈ file_metadata
          ∧ findDateMatch p.toList = some cs
          ∧ fromisoformat cs = some d
          ∧ dateInWindow start_date end_date d = true
          ∧ _filename_matches p files_to_load = true
          ∧ source_from_filename p
              ∉ (if incremental_load then existing_sources else [])
          ∧ EMPTY_GZIPPED_FILE_SIZE < sz := by
  unfold _data_to_load at h
  rw [data_to_load_filter_ok _ _ _ _ _ _ h, mem_filter_map_fst]
  constructor
  · rintro ⟨sz, hmem, hkeep⟩
    obtain ⟨⟨cs, d, hcs, hd, hw⟩, hfn, hsrc, hsz⟩ :=
      (keepFile_iff _ _ _ _ _).mp hkeep
    exact ⟨sz, cs, d, hmem, hcs, hd, hw, hfn, hsrc, hsz⟩
  · rintro ⟨sz, cs, d, hmem, hcs, hd, hw, hfn, hsrc, hsz⟩
    exact ⟨sz, hmem,
      (keepFile_iff _ _ _ _ _).mpr ⟨⟨cs, d, hcs, hd, hw⟩, hfn, hsrc, hsz⟩⟩

theorem selector_predicate_witness :
    "echo/CP_Quack-echo-2020-08-23-06-01-02/results.json.gz"
        ∈ ["echo/CP_Quack-echo-2020-08-23-06-01-02/results.json.gz"]
      ↔ ∃ sz cs d,
          ("echo/CP_Quack-echo-2020-08-23-06-01-02/results.json.gz", sz)
              ∈ [("echo/CP_Quack-echo-2020-08-23-06-01-02/results.json.gz",
                  100)]
          ∧ findDateMatch
              "echo/CP_Quack-echo-2020-08-23-06-01-02/results.json.gz".toList
              = some cs
          ∧ fromisoformat cs = some d
          ∧ dateInWindow (some ⟨2020, 8, 1⟩) none d = true
          ∧ _filename_matches
              "echo/CP_Quack-echo-2020-08-23-06-01-02/results.json.gz"
              ["results.json"] = true
          ∧ source_from_filename
              "echo/CP_Quack-echo-2020-08-23-06-01-02/results.json.gz"
              ∉ (if true then ["CP_Quack-echo-2020-08-22-06-08-03"] else [])
          ∧ EMPTY_GZIPPED_FILE_SIZE < sz :=
  selector_predicate true ["CP_Quack-echo-2020-08-22-06-08-03"]
    ["results.json"]
    [("echo/CP_Quack-echo-2020-08-23-06-01-02/results.json.gz", 100)]
    (some ⟨2020, 8, 1⟩) none
    ["echo/CP_Quack-echo-2020-08-23-06-01-02/results.json.gz"]
    "echo/CP_Quack-echo-2020-08-23-06-01-02/results.json.gz" (by decide)

theorem data_to_load_filter_indexerror (es fl : List String)
    (s e : Option PyDate) (fm : List (String × Nat)) (p : String) (sz : Nat)
    (hval : noValueErrors fm = true) (hp : (p, sz) ∈ fm)
    (hno : findDateMatch p.toList = none) :
    _data_to_load_filter es fl s e fm = Except.error PyErr.indexError := by
  induction fm with
  | nil => cases hp
  | cons q rest ih =>
    obtain ⟨qp, qs⟩ := q
    unfold _data_to_load_filter
    cases hf : findDateMatch qp.toList with
    | none =>
      have hbq : _between_dates qp s e = Except.error PyErr.indexError := by
        unfold _between_dates
        simp only [hf]
      rw [hbq]
    | some cs =>
      have hvq : (fromisoformat cs).isSome = true := by
        have := (List.all_eq_true.mp hval) (qp, qs) (by simp)
        have hf2 : findDateMatch qp.data = some cs := hf
        simpa [hf2] using this
      obtain ⟨d, hd⟩ := Option.isSome_iff_exists.mp hvq
      have hbq : _between_dates qp s e
          = Except.ok (dateInWindow s e d) := by
        unfold _between_dates
        simp only [hf, hd]
      rw [hbq]
      have hprest : (p, sz) ∈ rest := by
        rcases List.mem_cons.mp hp with heq | hmem
        · exfalso
          have : p = qp := congrArg Prod.fst heq
          rw [this] at hno
          rw [hno] at hf
          cases hf
        · exact hmem
      have hvrest : noValueErrors rest = true := by
        rw [noValueErrors, List.all_eq_true]
        intro q2 hq2
        exact (List.all_eq_true.mp hval) q2 (by simp [hq2])
      rw [ih hvrest hprest]

/-! ## Claim C10 -/

/-- Claim C10: selection is partial in the date stamp.  _between_dates
takes element zero of the regex findall result, so a path with no
YYYY-MM-DD substring makes it raise IndexError; consequently, whenever an
enumerated path carries no date stamp (and no other path raises a
ValueError first), _data_to_load raises IndexError instead of filtering
the path out, for any window, ingestion state and expected filenames. -/
theorem selector_indexerror_on_missing_datestamp (incremental_load : Bool)
    (existing_sources files_to_load : List String)
    (file_metadata : List (String × Nat))
    (start_date end_date : Option PyDate) (p : String) (sz : Nat)
    (hval : noValueErrors file_metadata = true)
    (hp : (p, sz) ∈ file_metadata)
    (hno : findDateMatch p.toList = none) :
    _data_to_load incremental_load existing_sources files_to_load
        file_metadata start_date end_date = Except.error PyErr.indexError
    ∧ _between_dates p start_date end_date
        = Except.error PyErr.indexError := by
  constructor
  · unfold _data_to_load
    exact data_to_load_filter_indexerror _ _ _ _ _ _ sz hval hp hno
  · unfold _between_dates
    simp only [hno]

theorem selector_indexerror_witness :
    _data_to_load false [] ["results.json"]
        [("echo/CP-undated/results.json", 100)] none none
      = Except.error PyErr.indexError
    ∧ _between_dates "echo/CP-undated/results.json" none none
      = Except.error PyErr.indexError :=
  selector_indexerror_on_missing_datestamp false [] ["results.json"]
    [("echo/CP-undated/results.json", 100)] none none
    "echo/CP-undated/results.json" 100 (by decide) (by decide) (by decide)

/-! ## Measurement flattener (flatten.py) -/

structure ProbeResult where
  success : Bool
deriving DecidableEq

/-- Modelled from the spec external-interface section: a parsed raw scan
record is probe-style, with keyword, server and one entry per protocol
attempt, or resolution-style, with a domain and resolved address list. -/
inductive Scan where
  | hyperquack (keyword : String) (server : String)
      (results : List ProbeResult)
  | satellite (domain : String) (answers : List String)
deriving DecidableEq

/-- Modelled from the spec: the common date field of a row is the
YYYY-MM-DD stamp parsed from the filepath (flatten_base.py is not among
the provided sources). -/
def dateFromFilename (filepath : String) : String :=
  match findDateMatch filepath.toList with
  | some cs => String.mk cs
  | none => ""

def listIsPre : List Char → List Char → Bool
  | [], _ => true
  | _ :: _, [] => false
  | a :: as2, b :: bs => decide (a = b) && listIsPre as2 bs

/-- Substring containment, modelling the Python in operator on strings for
a nonempty needle. -/
def listHasSub (sub : List Char) : List Char → Bool
  | [] => listIsPre sub []
  | c :: cs => listIsPre sub (c :: cs) || listHasSub sub cs

def strContains (s sub : String) : Bool := listHasSub sub.toList s.toList

/-- Modelled from the spec: SATELLITE_PATH_COMPONENT is defined in
pipeline/metadata/flatten_satellite.py, not among the provided sources;
the path indicates the resolution-style family by containing the family
name. -/
def SATELLITE_PATH_COMPONENT : String := "satellite"

/-- Modelled from the spec: FlattenHyperquackMixin._process_hyperquack
lives in pipeline/metadata/flatten_hyperquack.py, not among the provided
sources.  Per the spec the probe-style extractor is a pure function of
(filepath, parsed record, measurement id) yielding one row per protocol
attempt, populating the common fields date and source from the filepath
and the given measurement id on every row; the spec defines it only on
probe-style records, so a record of the other shape yields nothing. -/
def _process_hyperquack (filename : String) (scan : Scan)
    (measurement_id : String) : List BigqueryRow :=
  match scan with
  | Scan.hyperquack keyword server results =>
    results.map (fun res =>
      { domain := keyword, ip := server,
        date := dateFromFilename filename,
        source := source_from_filename filename,
        measurement_id := measurement_id,
        success := some res.success })
  | Scan.satellite _ _ => []

/-- Modelled from the spec: FlattenSatelliteMixin._process_satellite lives
in pipeline/metadata/flatten_satellite.py, not among the provided sources.
Per the spec the resolution-style extractor yields one row per DNS answer,
populating the common fields identically and the given measurement id on
every row. -/
def _process_satellite (filename : String) (scan : Scan)
    (measurement_id : String) : List BigqueryRow :=
  match scan with
  | Scan.satellite domain answers =>
    answers.map (fun answer =>
      { domain := domain, ip := answer,
        date := dateFromFilename filename,
        source := source_from_filename filename,
        measurement_id := measurement_id,
        answers := [answer] })
  | Scan.hyperquack _ _ _ => []

/-- A warning logged for a line that failed JSON parsing, identifying the
file and the line. -/
structure JsonWarning where
  filename : String
  line : String
deriving DecidableEq

structure FlattenOutput where
  rows : List BigqueryRow
  warnings : List JsonWarning
  uuidCounter : Nat
deriving DecidableEq

/-- FlattenMeasurement.process from pipeline/metadata/flatten.py.  JSON
parsing is modelled by the parseJson parameter, none modelling a
JSONDecodeError; the uuid4 generator is modelled by the uuidHex supply
read at a counter of generated ids.  The output records the yielded rows,
the logged warnings, and the counter after the call. -/
def FlattenMeasurement.process (parseJson : String → Option Scan)
    (uuidHex : Nat → String) (counter : Nat) (element : String × String) :
    FlattenOutput :=
  let filename := element.1
  let line := element.2
  match parseJson line with
  | none =>
    { rows := [],
      warnings := [{ filename := filename, line := line }],
      uuidCounter := counter }
  | some scan =>
    let random_measurement_id := uuidHex counter
    if strContains filename SATELLITE_PATH_COMPONENT then
      { rows := _process_satellite filename scan random_measurement_id,
        warnings := [], uuidCounter := counter + 1 }
    else
      { rows := _process_hyperquack filename scan random_measurement_id,
        warnings := [], uuidCounter := counter + 1 }

/-! ## Claim C6 -/

/-- Claim C6: malformed-line tolerance.  For every (filepath, line) input
whose line fails JSON parsing, FlattenMeasurement.process logs exactly one
warning identifying the file and the line, yields zero rows, consumes no
measurement id, and returns normally instead of raising; the failure is
absorbed for that line alone. -/
theorem process_malformed_line (parseJson : String → Option Scan)
    (uuidHex : Nat → String) (counter : Nat) (filename line : String)
    (h : parseJson line = none) :
    FlattenMeasurement.process parseJson uuidHex counter (filename, line)
      = { rows := [],
          warnings := [{ filename := filename, line := line }],
          uuidCounter := counter } := by
  unfold FlattenMeasurement.process
  simp only [h]

theorem process_malformed_line_witness :
    FlattenMeasurement.process (fun _ => none) (fun n => toString n) 0
        ("echo/CP-2020-08-23/results.json", "not json")
      = { rows := [],
          warnings := [{ filename := "echo/CP-2020-08-23/results.json",
                         line := "not json" }],
          uuidCounter := 0 } :=
  process_malformed_line (fun _ => none) (fun n => toString n) 0
    "echo/CP-2020-08-23/results.json" "not json" rfl

/-! ## Claim C7 -/

theorem process_hyperquack_measurement_id (filename : String) (scan : Scan)
    (mid : String) (r : BigqueryRow)
    (hr : r ∈ _process_hyperquack filename scan mid) :
    r.measurement_id = mid := by
  unfold _process_hyperquack at hr
  cases scan with
  | hyperquack k s results =>
    rw [List.mem_map] at hr
    obtain ⟨res, _, rfl⟩ := hr
    rfl
  | satellite _ _ => cases hr

theorem process_satellite_measurement_id (filename : String) (scan : Scan)
    (mid : String) (r : BigqueryRow)
    (hr : r ∈ _process_satellite filename scan mid) :
    r.measurement_id = mid := by
  unfold _process_satellite at hr
  cases scan with
  | satellite d answers =>
    rw [List.mem_map] at hr
    obtain ⟨ans, _, rfl⟩ := hr
    rfl
  | hyperquack _ _ _ => cases hr

/-- Claim C7: measurement grouping.  For every successfully parsed line,
exactly one measurement id is generated (the uuid counter advances by
exactly one), and every row yielded for that line carries that one id, on
both the probe-style and the resolution-style path; distinct lines read
the uuid supply at distinct counters, modelling the overwhelming
uniqueness of uuid4 across lines. -/
theorem process_measurement_grouping (parseJson : String → Option Scan)
    (uuidHex : Nat → String) (counter : Nat) (filename line : String)
    (scan : Scan) (h : parseJson line = some scan) :
    (FlattenMeasurement.process parseJson uuidHex counter
        (filename, line)).uuidCounter = counter + 1
    ∧ ∀ r ∈ (FlattenMeasurement.process parseJson uuidHex counter
        (filename, line)).rows,
        r.measurement_id = uuidHex counter := by
  unfold FlattenMeasurement.process
  simp only [h]
  by_cases hs : strContains filename SATELLITE_PATH_COMPONENT = true
  · simp only [hs, if_true]
    exact ⟨by simp, fun r hr =>
      process_satellite_measurement_id filename scan (uuidHex counter) r hr⟩
  · rw [Bool.not_eq_true] at hs
    simp only [hs, Bool.false_eq_true, if_false]
    exact ⟨by simp, fun r hr =>
      process_hyperquack_measurement_id filename scan (uuidHex counter) r hr⟩

theorem process_measurement_grouping_witness :
    (FlattenMeasurement.process
        (fun l => if l = "rec" then
          some (Scan.hyperquack "test.com" "1.2.3.4"
            [{ success := true }, { success := false }]) else none)
        (fun n => toString n) 5 ("echo/CP-2020-08-23/results.json", "rec")
      ).uuidCounter = 5 + 1
    ∧ ∀ r ∈ (FlattenMeasurement.process
        (fun l => if l = "rec" then
          some (Scan.hyperquack "test.com" "1.2.3.4"
            [{ success := true }, { success := false }]) else none)
        (fun n => toString n) 5 ("echo/CP-2020-08-23/results.json", "rec")
      ).rows, r.measurement_id = (fun n => toString n) 5 :=
  process_measurement_grouping
    (fun l => if l = "rec" then
      some (Scan.hyperquack "test.com" "1.2.3.4"
        [{ success := true }, { success := false }]) else none)
    (fun n => toString n) 5 "echo/CP-2020-08-23/results.json" "rec"
    (Scan.hyperquack "test.com" "1.2.3.4"
      [{ success := true }, { success := false }]) (by decide)

/-! ## Pipeline run (beam_tables.py) -/

/-- The flatten stage over all (filename, line) pairs of a run, threading
the uuid counter through the per-line FlattenMeasurement.process calls:
beam.ParDo of FlattenMeasurement over the line collection. -/
def flattenAllLines (parseJson : String → Option Scan)
    (uuidHex : Nat → String) :
    Nat → List (String × String) → List BigqueryRow
  | _, [] => []
  | counter, e :: rest =>
    let out := FlattenMeasurement.process parseJson uuidHex counter e
    out.rows ++ flattenAllLines parseJson uuidHex out.uuidCounter rest

/-- _read_scan_text from pipeline/beam_tables.py: all lines of the
selected files, keyed by filename; file contents are passed in as the
fileLines enumeration. -/
def _read_scan_text (fileLines : String → List String)
    (filenames : List String) : List (String × String) :=
  filenames.flatMap (fun f => (fileLines f).map (fun l => (f, l)))

/-- _raise_exception_if_zero from pipeline/beam_tables.py: raise exactly
on a zero count. -/
def _raise_exception_if_zero (num : Nat) : Except String Unit :=
  if num = 0 then
    Except.error "Zero rows were created even though there were new files."
  else Except.ok ()

/-- _raise_error_if_collection_empty from pipeline/beam_tables.py: count
the collection globally and apply _raise_exception_if_zero to the
count. -/
def _raise_error_if_collection_empty (rows : List BigqueryRow) :
    Except String Unit :=
  _raise_exception_if_zero rows.length

def exceptIsOk {ε α : Type} : Except ε α → Bool
  | Except.ok _ => true
  | Except.error _ => false

/-- The row pipeline of ScanDataBeamPipelineRunner.run_beam_pipeline from
pipeline/beam_tables.py, from the point where the selected file list is
known: an empty selection logs and returns with no pipeline run (ok none);
otherwise the run reads all lines of the files, flattens them, joins the
metadata, raises the zero-row error when the joined collection is empty,
and otherwise hands the rows to the write stage (ok some).  Destination
validation and the BigQuery/GCS write stages are outside the modelled
core. -/
def run_beam_pipeline (factory : String → String → MetadataRecord)
    (parseJson : String → Option Scan) (uuidHex : Nat → String)
    (fileLines : String → List String) (new_filenames : List String) :
    Except String (Option (List BigqueryRow)) :=
  if new_filenames.isEmpty then Except.ok none
  else
    let lines := _read_scan_text fileLines new_filenames
    let rows := flattenAllLines parseJson uuidHex 0 lines
    let rows_with_metadata := _add_metadata factory rows
    match _raise_error_if_collection_empty rows_with_metadata with
    | Except.error e => Except.error e
    | Except.ok _ => Except.ok (some rows_with_metadata)

/-! ## Claim C9 -/

/-- Claim C9: empty-output abort.  _raise_exception_if_zero raises exactly
on a zero count, so any positive row count passes the check; and when the
selector returned a non-empty file list, the run fails exactly when the
joined row collection it produced is empty. -/
theorem run_aborts_iff_zero_rows (factory : String → String → MetadataRecord)
    (parseJson : String → Option Scan) (uuidHex : Nat → String)
    (fileLines : String → List String) (new_filenames : List String)
    (hne : new_filenames ≠ []) :
    (∀ n : Nat, _raise_exception_if_zero n
        = Except.error
            "Zero rows were created even though there were new files."
      ↔ n = 0)
    ∧ (exceptIsOk (run_beam_pipeline factory parseJson uuidHex fileLines
          new_filenames) = false
      ↔ (_add_metadata factory (flattenAllLines parseJson uuidHex 0
          (_read_scan_text fileLines new_filenames))).length = 0) := by
  constructor
  · intro n
    unfold _raise_exception_if_zero
    by_cases hn : n = 0
    · simp [hn]
    · simp [hn]
  · unfold run_beam_pipeline
    have hemp : new_filenames.isEmpty = false := by
      cases new_filenames with
      | nil => exact absurd rfl hne
      | cons a l => rfl
    rw [hemp]
    unfold _raise_error_if_collection_empty _raise_exception_if_zero
    by_cases hz : (_add_metadata factory (flattenAllLines parseJson uuidHex 0
        (_read_scan_text fileLines new_filenames))).length = 0
    · simp [hz, exceptIsOk]
    · simp [hz, exceptIsOk]

theorem run_aborts_iff_zero_rows_witness :
    (∀ n : Nat, _raise_exception_if_zero n
        = Except.error
            "Zero rows were created even though there were new files."
      ↔ n = 0)
    ∧ (exceptIsOk (run_beam_pipeline wFactory
          (fun l => if l = "good" then
            some (Scan.hyperquack "test.com" "1.2.3.4" [{ success := true }])
          else none)
          (fun n => toString n) (fun _ => ["good", "bad line"])
          ["echo/CP-2020-08-23/results.json"]) = false
      ↔ (_add_metadata wFactory (flattenAllLines
          (fun l => if l = "good" then
            some (Scan.hyperquack "test.com" "1.2.3.4" [{ success := true }])
          else none)
          (fun n => toString n) 0
          (_read_scan_text (fun _ => ["good", "bad line"])
            ["echo/CP-2020-08-23/results.json"]))).length = 0) :=
  run_aborts_iff_zero_rows wFactory
    (fun l => if l = "good" then
      some (Scan.hyperquack "test.com" "1.2.3.4" [{ success := true }])
    else none)
    (fun n => toString n) (fun _ => ["good", "bad line"])
    ["echo/CP-2020-08-23/results.json"] (by decide)

/-! ## Maxmind provider (pipeline/metadata/maxmind.py) -/

structure AsnRecord where
  autonomous_system_number : Option Nat
  autonomous_system_organization : Option String
  network : Option String
deriving DecidableEq

structure CityRecord where
  country_iso_code : Option String
deriving DecidableEq

/-- MaxmindIpMetadata from pipeline/metadata/maxmind.py: the two geoip2
readers are modelled as functions from an ip to an optional record, none
modelling a raised ValueError or AddressNotFoundError; the network field
holds the with_prefixlen string when the record carries a network. -/
structure MaxmindIpMetadata where
  maxmind_asn : String → Option AsnRecord
  maxmind_city : String → Option CityRecord

/-- MaxmindIpMetadata._get_maxmind_asn: the (asn, as org, netblock) triple
for the ip, all None when the reader raises. -/
def MaxmindIpMetadata._get_maxmind_asn (db : MaxmindIpMetadata)
    (vp_ip : String) : Option Nat × Option String × Option String :=
  match db.maxmind_asn vp_ip with
  | some vp_info =>
    (vp_info.autonomous_system_number,
     vp_info.autonomous_system_organization, vp_info.network)
  | none => (none, none, none)

/-- MaxmindIpMetadata._get_country_code: the two-letter country code for
the ip, None when the reader raises or the record has no code. -/
def MaxmindIpMetadata._get_country_code (db : MaxmindIpMetadata)
    (vp_ip : String) : Option String :=
  match db.maxmind_city vp_ip with
  | some vp_info => vp_info.country_iso_code
  | none => none

/-- The success value of MaxmindIpMetadata.lookup: the
(netblock, asn, as_name, as_full_name, as_type, country) tuple, where the
asn slot holds the integer the ASN lookup yielded and as_full_name and
as_type are always None for Maxmind. -/
structure MaxmindLookupResult where
  netblock : Option String
  asn : Nat
  as_name : Option String
  as_full_name : Option String
  as_type : Option String
  country : Option String
deriving DecidableEq

/-- Python falsiness of the optional integer asn value: None and 0 are
falsy. -/
def pyFalsyOptNat : Option Nat → Bool
  | none => true
  | some n => decide (n = 0)

/-- MaxmindIpMetadata.lookup from pipeline/metadata/maxmind.py: compute
the ASN triple and the country code, raise the KeyError (here the error
string) when the asn value is falsy (the Python test is: if not asn),
otherwise return the metadata tuple. -/
def MaxmindIpMetadata.lookup (db : MaxmindIpMetadata) (ip : String) :
    Except String MaxmindLookupResult :=
  let t := db._get_maxmind_asn ip
  let country := db._get_country_code ip
  match t.1 with
  | none => Except.error ("No Maxmind entry for " ++ ip)
  | some a =>
    if a = 0 then Except.error ("No Maxmind entry for " ++ ip)
    else Except.ok
      { netblock := t.2.2, asn := a, as_name := t.2.1,
        as_full_name := none, as_type := none, country := country }

/-! ## Claim C8 -/

def cAsnZeroDb : MaxmindIpMetadata :=
  { maxmind_asn := fun _ => some
      { autonomous_system_number := some 0,
        autonomous_system_organization := some "ZERO-AS",
        network := some "9.9.9.0/24" },
    maxmind_city := fun _ => some { country_iso_code := some "AU" } }

/-- Claim C8 counterexample: for an ip whose ASN lookup yields the ASN
value 0, lookup raises the not-found KeyError even though the ASN lookup
did yield an ASN, so lookup failure is not equivalent to the ASN lookup
yielding no ASN: the Python test (if not asn) also fires on the falsy
integer 0. -/
theorem maxmind_lookup_asn_zero_counterexample :
    exceptIsOk (MaxmindIpMetadata.lookup cAsnZeroDb "9.9.9.9") = false
    ∧ (cAsnZeroDb._get_maxmind_asn "9.9.9.9").1 = some 0
    ∧ ¬ (cAsnZeroDb._get_maxmind_asn "9.9.9.9").1 = none := by
  refine ⟨rfl, rfl, ?_⟩
  intro h
  cases h

/-- Claim C8 (amended): lookup fails with the not-found error exactly when
the ASN lookup yields a Python-falsy asn value, that is no ASN at all or
the ASN 0; and for an ip whose ASN lookup yields a nonzero ASN, lookup
succeeds even when the country lookup yields nothing, returning the
record with the country field exactly as the country lookup produced it
(possibly unset): absence of an individual field is valid and distinct
from lookup failure. -/
theorem maxmind_lookup_failure_iff (db : MaxmindIpMetadata) (ip : String) :
    (exceptIsOk (db.lookup ip) = false
      ↔ pyFalsyOptNat (db._get_maxmind_asn ip).1 = true)
    ∧ (∀ a : Nat, (db._get_maxmind_asn ip).1 = some a → ¬ a = 0 →
        db.lookup ip = Except.ok
          { netblock := (db._get_maxmind_asn ip).2.2, asn := a,
            as_name := (db._get_maxmind_asn ip).2.1,
            as_full_name := none, as_type := none,
            country := db._get_country_code ip }) := by
  constructor
  · unfold MaxmindIpMetadata.lookup
    cases ha : (db._get_maxmind_asn ip).1 with
    | none => simp [ha, pyFalsyOptNat, exceptIsOk]
    | some a =>
      by_cases h0 : a = 0
      · simp [ha, h0, pyFalsyOptNat, exceptIsOk]
      · simp [ha, h0, pyFalsyOptNat, exceptIsOk]
  · intro a ha h0
    unfold MaxmindIpMetadata.lookup
    simp [ha, h0]

def cGoodDb : MaxmindIpMetadata :=
  { maxmind_asn := fun _ => some
      { autonomous_system_number := some 13335,
        autonomous_system_organization := some "CLOUDFLARENET",
        network := some "1.0.0.0/24" },
    maxmind_city := fun _ => none }

theorem maxmind_lookup_failure_iff_witness :
    MaxmindIpMetadata.lookup cGoodDb "1.0.0.1" = Except.ok
      { netblock := (cGoodDb._get_maxmind_asn "1.0.0.1").2.2, asn := 13335,
        as_name := (cGoodDb._get_maxmind_asn "1.0.0.1").2.1,
        as_full_name := none, as_type := none,
        country := cGoodDb._get_country_code "1.0.0.1" } :=
  (maxmind_lookup_failure_iff cGoodDb "1.0.0.1").2 13335 (by decide)
    (by decide)
